import Mathlib

/-!
Shallow embedding of the datalyst-smolagent analysis/visualization engine
(`src/tools/data_tools.py`, `src/tools/stats_tools.py`, `src/tools/chart_tools.py`).

A CSV file loaded by `pd.read_csv` is modelled as a `DataFrame`: an ordered
list of named columns, each holding `nrows` cells.  A cell is either the
missing sentinel (NaN), a number, or a string; `pd.read_csv` yields a numeric
dtype for a column exactly when every non-missing cell parses as a number
(an all-missing column gets dtype float64, hence is numeric).  Machine floats
are modelled by exact rationals; the Python-level float rounding helpers
`round(x, 2)` / `round(x, 4)` are modelled by exact round-half-even on ℚ.
Operations that can raise a Python exception mid-computation are modelled as
`Option`-valued, returning `none` exactly at the raising inputs.
-/

namespace Datalyst

/-- One cell of a loaded CSV column: missing (NaN), numeric, or string. -/
inductive Value where
  | na : Value
  | num : ℚ → Value
  | str : String → Value
deriving DecidableEq

def Value.isNa : Value → Bool
  | .na => true
  | _ => false

/-- Numeric payload of a cell, if any. -/
def Value.toNum : Value → Option ℚ
  | .num q => some q
  | _ => none

/-- `str(value)` as applied by `.astype(str)` / `str(val)` on object columns.
Numeric cells never match the date-shape pattern in either rendering, and no
claim depends on the exact numeric spelling. -/
def Value.pyStr : Value → String
  | .na => "nan"
  | .num q => toString q
  | .str s => s

/-- A named column of a loaded dataframe. -/
structure Col where
  name : String
  values : List Value
deriving DecidableEq

/-- `pd.api.types.is_numeric_dtype(df[col])` for a `read_csv` result: the
column parsed numerically, i.e. every cell is missing or a number. -/
def Col.isNumeric (c : Col) : Bool :=
  c.values.all (fun v => v.isNa || v.toNum.isSome)

/-- `df[col].dropna()` (the values that remain). -/
def Col.dropna (c : Col) : List Value :=
  c.values.filter (fun v => !v.isNa)

/-- The numeric data of a column (for a numeric-dtype column this is exactly
`df[col].dropna()`). -/
def Col.numData (c : Col) : List ℚ :=
  c.values.filterMap Value.toNum

/-- A loaded CSV: ordered named columns, fixed row count. -/
structure DataFrame where
  cols : List Col
  nrows : ℕ

/-- Well-formedness of a loaded CSV: every column has `nrows` cells and
column names are distinct (`read_csv` mangles duplicate headers). -/
def DataFrame.WF (df : DataFrame) : Prop :=
  (∀ c ∈ df.cols, c.values.length = df.nrows) ∧ (df.cols.map Col.name).Nodup

instance (df : DataFrame) : Decidable df.WF := by
  unfold DataFrame.WF; infer_instance

/-- `column in df.columns` resolution: the (unique) column of that name. -/
def DataFrame.findCol (df : DataFrame) (name : String) : Option Col :=
  df.cols.find? (fun c => c.name == name)

/-- `df.select_dtypes(include=[np.number])`: the numeric-dtype columns in
original order. -/
def numericCols (df : DataFrame) : List Col :=
  df.cols.filter (fun c => c.isNumeric)

/-- Python `round` to an integer: round half to even (banker's rounding),
applied here to the exact rational value. -/
def pyRound (q : ℚ) : ℤ :=
  let f : ℤ := ⌊q⌋
  let r : ℚ := q - f
  if r < 1/2 then f
  else if 1/2 < r then f + 1
  else if f % 2 = 0 then f else f + 1

/-- Python `round(q, 2)`. -/
def round2 (q : ℚ) : ℚ := (pyRound (q * 100) : ℚ) / 100

/-- Python `round(q, 4)`. -/
def round4 (q : ℚ) : ℚ := (pyRound (q * 10000) : ℚ) / 10000

/-- Linear interpolation at virtual index `h` into a sorted list: the value
between positions `⌊h⌋` and `⌊h⌋+1`. -/
def interpSorted (xs : List ℚ) (h : ℚ) : ℚ :=
  xs.getD (⌊h⌋).toNat 0 +
    (h - ((⌊h⌋).toNat : ℚ)) * (xs.getD ((⌊h⌋).toNat + 1) 0 - xs.getD (⌊h⌋).toNat 0)

/-- Linear-interpolation quantile of an already sorted list, exactly as
`numpy`/`pandas` compute `Series.quantile(p)` (default
`interpolation="linear"`): interpolate at virtual index `h = p·(n−1)`. -/
def quantileSorted (xs : List ℚ) (p : ℚ) : ℚ :=
  interpSorted xs (p * ((xs.length : ℚ) - 1))

/-- `pandas.Series.quantile(p)` on (non-missing) data: sort, then interpolate.
(`pandas` sorts with an unstable quicksort; only the sorted values matter, so
a stable insertion sort embeds it faithfully.) -/
def pyQuantile (xs : List ℚ) (p : ℚ) : ℚ :=
  quantileSorted (List.insertionSort (· ≤ ·) xs) p

/-- Sample mean `Series.mean()` of the non-missing data. -/
def listMean (xs : List ℚ) : ℚ := xs.sum / (xs.length : ℚ)

/-- Centered sum of squares `Σ (x − mean)²` of a data list. -/
def centeredSS (xs : List ℚ) : ℚ :=
  (xs.map (fun a => (a - listMean xs) ^ 2)).sum

/-! ## detect_outliers_iqr (src/tools/stats_tools.py, lines 50–88) -/

/-- The successful payload of `detect_outliers_iqr`. -/
structure OutlierReport where
  q1 : ℚ
  q3 : ℚ
  iqr : ℚ
  lower_fence : ℚ
  upper_fence : ℚ
  outlier_count : ℕ
  outlier_pct : ℚ
  outlier_sample : List ℚ
deriving DecidableEq

/-- Structured result of `detect_outliers_iqr` (a JSON string in the source). -/
inductive OutlierResult where
  | errNotFound : String → OutlierResult
  | errNotNumeric : String → OutlierResult
  | report : OutlierReport → OutlierResult
deriving DecidableEq

/-- `detect_outliers_iqr(filepath, column)`.  Returns `none` when the Python
code raises: with an empty post-`dropna` series the line
`round(len(outliers) / len(series) * 100, 2)` evaluates `0 / 0` on
integers and raises `ZeroDivisionError` (the preceding quantile/fence lines
only produce NaNs and do not raise). -/
def detect_outliers_iqr (df : DataFrame) (column : String) : Option OutlierResult :=
  match df.findCol column with
  | none => some (.errNotFound column)
  | some c =>
    if !c.isNumeric then some (.errNotNumeric column)
    else
      let vals := c.numData
      if vals.length = 0 then none
      else
        let q1 := pyQuantile vals (1/4)
        let q3 := pyQuantile vals (3/4)
        let iqr := q3 - q1
        let lf := q1 - 3/2 * iqr
        let uf := q3 + 3/2 * iqr
        let outliers := vals.filter (fun x => decide (x < lf) || decide (uf < x))
        some (.report
          { q1 := q1, q3 := q3, iqr := iqr, lower_fence := lf, upper_fence := uf
            outlier_count := outliers.length
            outlier_pct := round2 ((outliers.length : ℚ) / (vals.length : ℚ) * 100)
            outlier_sample := outliers.take 10 })

/-! ## get_column_schema (src/tools/data_tools.py, lines 30–71) -/

/-- The semantic column types assigned by the classifier. -/
inductive ColType where
  | numeric | datetime | categorical | text
deriving DecidableEq

/-- Per-column schema entry. -/
structure ColSchema where
  type : ColType
  unique_values : ℕ
  sample_values : List Value
deriving DecidableEq

/-- The date-shape regular expression of `get_column_schema`: four digits,
separator, two digits, separator, two digits — or two digits, separator, two
digits, separator, four digits — where a separator is a dash or a slash, the
whole string anchored (ten characters total). -/
def dateShape (s : String) : Bool :=
  match s.toList with
  | [a, b, c, d, e, f, g, h, i, j] =>
    let dig := fun ch : Char => ch.isDigit
    let sep := fun ch : Char => ch = '-' || ch = '/'
    (dig a && dig b && dig c && dig d && sep e && dig f && dig g && sep h && dig i && dig j) ||
    (dig a && dig b && sep c && dig d && dig e && sep f && dig g && dig h && dig i && dig j)
  | _ => false

/-- Distinct values in first-occurrence order, skipping an accumulator of
already-seen values (used for `nunique` counts and `value_counts` grouping). -/
def uniquedAux : List Value → List Value → List Value
  | [], _ => []
  | v :: rest, seen =>
    if v ∈ seen then uniquedAux rest seen
    else v :: uniquedAux rest (v :: seen)

/-- Distinct values of a list in first-occurrence order. -/
def uniqued (vs : List Value) : List Value := uniquedAux vs []

/-- `df[col].nunique()`: distinct non-missing values. -/
def Col.nunique (c : Col) : ℕ := (uniqued c.dropna).length

/-- `get_column_schema(filepath)`.  A `read_csv` frame never carries a
`datetime64` dtype (no `parse_dates` is passed anywhere in the repository),
so the `is_datetime64_any_dtype` branch is unreachable and is not modelled.
The string-like branch tests the first 20 non-missing values against the
date-shape pattern; `mean() > 0.8` is the exact integer comparison
`5·matches > 4·sample_size` (for an empty sample, `NaN > 0.8` is `False`,
matching `0 > 0`).  `int(len(df) * 0.05)` truncates the exact product. -/
def schemaOf (df : DataFrame) (c : Col) : ColSchema :=
  let colData := c.dropna
  let uniqueCount := (uniqued colData).length
  let ty : ColType :=
    if c.isNumeric then .numeric
    else
      let sample := (colData.take 20).map Value.pyStr
      if 4 * sample.length < 5 * (sample.filter dateShape).length then .datetime
      else if uniqueCount ≤ max 20 ((⌊(df.nrows : ℚ) * (1/20)⌋).toNat) then .categorical
      else .text
  { type := ty, unique_values := uniqueCount, sample_values := colData.take 5 }

def get_column_schema (df : DataFrame) : List (String × ColSchema) :=
  df.cols.map (fun c => (c.name, schemaOf df c))

/-! ## compute_descriptive_stats (src/tools/stats_tools.py, lines 8–46) -/

/-- Exact representation of a machine-float statistic: missing (NaN), an
exact rational, or `num / √den` for the square-root-valued statistics. -/
inductive RealRep where
  | nan : RealRep
  | rat : ℚ → RealRep
  | sqrtQuot : ℚ → ℚ → RealRep
deriving DecidableEq

/-- The ten statistics reported per column. -/
structure DescStats where
  count : ℕ
  missing : ℕ
  mean : ℚ
  median : ℚ
  std : RealRep
  min : ℚ
  max : ℚ
  q25 : ℚ
  q75 : ℚ
  skewness : RealRep
  kurtosis : RealRep
deriving DecidableEq

/-- Column selector argument: the `'ALL_NUMERIC'` sentinel (matched
case-insensitively in the source) or the comma-split explicit name list. -/
inductive ColumnSelector where
  | allNumeric : ColumnSelector
  | explicitCols : List String → ColumnSelector

def resolveSelector (df : DataFrame) : ColumnSelector → List String
  | .allNumeric => (numericCols df).map Col.name
  | .explicitCols ns => ns

/-- The statistics block computed for one numeric column.
`std` is `√(S/(n−1))` (NaN for `n = 1`); `skewness` and `kurtosis` follow
pandas `nanskew`/`nankurt`: NaN below the minimum count, exact `0` when the
second moment vanishes, otherwise the adjusted Fisher formulas (the kurtosis
formula is rational; the skewness value `K·m3/m2^{3/2}` is stored as
`num / √den` with `num = n·(n−1)·m3/(n−2)`, `den = (n−1)·m2³`). -/
def mkStats (c : Col) : DescStats :=
  let vals := c.numData
  let n : ℕ := vals.length
  let nq : ℚ := (n : ℚ)
  let m := listMean vals
  let m2 := (vals.map (fun a => (a - m) ^ 2)).sum
  let m3 := (vals.map (fun a => (a - m) ^ 3)).sum
  let m4 := (vals.map (fun a => (a - m) ^ 4)).sum
  { count := n
    missing := (c.values.filter Value.isNa).length
    mean := m
    median := pyQuantile vals (1/2)
    std :=
      if n < 2 then .nan
      else if m2 = 0 then .rat 0
      else .sqrtQuot (m2 / (nq - 1)) (m2 / (nq - 1))
    min := (vals.min?).getD 0
    max := (vals.max?).getD 0
    q25 := pyQuantile vals (1/4)
    q75 := pyQuantile vals (3/4)
    skewness :=
      if n < 3 then .nan
      else if m2 = 0 then .rat 0
      else .sqrtQuot (nq * (nq - 1) * m3 / (nq - 2)) ((nq - 1) * m2 ^ 3)
    kurtosis :=
      if n < 4 then .nan
      else if m2 = 0 then .rat 0
      else .rat (nq * (nq + 1) * (nq - 1) * m4 / ((nq - 2) * (nq - 3) * m2 ^ 2)
                 - 3 * (nq - 1) ^ 2 / ((nq - 2) * (nq - 3))) }

/-- The loop body of `compute_descriptive_stats`: absent columns and columns
empty after `dropna` are skipped; a present non-numeric column with data
makes `series.mean()` raise `TypeError` (object-dtype strings cannot be
averaged), modelled as `none`. -/
def descLoop (df : DataFrame) : List String → List (String × DescStats) →
    Option (List (String × DescStats))
  | [], acc => some acc
  | name :: rest, acc =>
    match df.findCol name with
    | none => descLoop df rest acc
    | some c =>
      if c.dropna.length = 0 then descLoop df rest acc
      else if c.isNumeric then descLoop df rest (acc ++ [(name, mkStats c)])
      else none

/-- `compute_descriptive_stats(filepath, columns)` (result dict as an ordered
association list; `none` models an escaping exception). -/
def compute_descriptive_stats (df : DataFrame) (sel : ColumnSelector) :
    Option (List (String × DescStats)) :=
  descLoop df (resolveSelector df sel) []

/-! ## compute_value_counts (src/tools/stats_tools.py, lines 92–119) -/

/-- One `{value, count, pct}` entry of the result. -/
structure VCEntry where
  value : String
  count : ℕ
  pct : ℚ
deriving DecidableEq

/-- Successful payload of `compute_value_counts`. -/
structure VCPayload where
  column : String
  total_non_null : ℕ
  top_values : List VCEntry
deriving DecidableEq

inductive VCResult where
  | errNotFound : String → VCResult
  | ok : VCPayload → VCResult
deriving DecidableEq

/-- `Series.value_counts()`: distinct non-missing values with multiplicities,
sorted by descending count.  The embedding sorts stably over first-occurrence
grouping order (pandas breaks count ties in hash-table order; no claim
depends on tie order). -/
def valueCountsOf (vs : List Value) : List (Value × ℕ) :=
  List.insertionSort (fun a b : Value × ℕ => b.2 ≤ a.2)
    ((uniqued vs).map (fun v => (v, vs.count v)))

/-- `compute_value_counts(filepath, column, top_n)`. -/
def compute_value_counts (df : DataFrame) (column : String) (top_n : ℕ) : VCResult :=
  match df.findCol column with
  | none => .errNotFound column
  | some c =>
    let nonNull := c.dropna
    let total := nonNull.length
    let counts := (valueCountsOf nonNull).take top_n
    .ok { column := column
          total_non_null := total
          top_values := counts.map (fun p =>
            { value := p.1.pyStr, count := p.2
              pct := round2 ((p.2 : ℚ) / (total : ℚ) * 100) }) }

/-! ## compute_correlation_matrix (src/tools/stats_tools.py, lines 123–145) -/

/-- One matrix cell: NaN, or the exact value `num / √den` (with `den > 0`)
computed by pandas `nancorr`. -/
inductive CorrEntry where
  | nan : CorrEntry
  | rval : ℚ → ℚ → CorrEntry
deriving DecidableEq

/-- What real number a matrix cell denotes (`nan` denotes none). -/
def CorrEntry.represents : CorrEntry → ℝ → Prop
  | .nan, _ => False
  | .rval c d, r => 0 < d ∧ r * Real.sqrt (d : ℚ) = (c : ℚ)

/-- The rows paired on both columns being non-missing. -/
def pairedData (xs ys : List Value) : List (ℚ × ℚ) :=
  (xs.zip ys).filterMap (fun p =>
    match p.1.toNum, p.2.toNum with
    | some a, some b => some (a, b)
    | _, _ => none)

/-- Centered sums of a paired sample: `(vx, vy, covxy)`. -/
def pairSums (ps : List (ℚ × ℚ)) : ℚ × ℚ × ℚ :=
  let n : ℚ := (ps.length : ℚ)
  let mx : ℚ := (ps.map Prod.fst).sum / n
  let my : ℚ := (ps.map Prod.snd).sum / n
  ((ps.map (fun p => (p.1 - mx) ^ 2)).sum,
   (ps.map (fun p => (p.2 - my) ^ 2)).sum,
   (ps.map (fun p => (p.1 - mx) * (p.2 - my))).sum)

/-- One cell of `DataFrame.corr(method="pearson")` (pandas `nancorr` with
`min_periods = 1`): over the pairwise-complete rows, NaN when no rows remain
or when either centered sum of squares vanishes, else
`covxy / √(vx·vy)`, encoded as `rval covxy (vx·vy)`. -/
def nancorr (xs ys : List Value) : CorrEntry :=
  let ps := pairedData xs ys
  if ps.length = 0 then .nan
  else
    let s := pairSums ps
    if s.1 * s.2.1 = 0 then .nan else .rval s.2.2 (s.1 * s.2.1)

/-- The `corr.to_dict()` payload: column list plus a dict-of-dicts. -/
structure CorrMatrix where
  columns : List String
  matrix : List (String × List (String × CorrEntry))
deriving DecidableEq

/-- Cell lookup in the dict-of-dicts. -/
def CorrMatrix.entry (m : CorrMatrix) (a b : String) : Option CorrEntry :=
  (m.matrix.lookup a).bind (fun row => row.lookup b)

inductive CorrResult where
  | err : String → CorrResult
  | ok : CorrMatrix → CorrResult
deriving DecidableEq

def CorrResult.getOk : CorrResult → Option CorrMatrix
  | .err _ => none
  | .ok m => some m

/-- `compute_correlation_matrix(filepath)`. -/
def compute_correlation_matrix (df : DataFrame) : CorrResult :=
  let ncols := numericCols df
  if ncols.length < 2 then .err "Fewer than 2 numeric columns found"
  else .ok
    { columns := ncols.map Col.name
      matrix := ncols.map (fun a =>
        (a.name, ncols.map (fun b => (b.name, nancorr a.values b.values)))) }

/-! ## Chart operations (src/tools/chart_tools.py) -/

/-- Artifact-name sanitization: spaces and slashes become underscores. -/
def sanitize (s : String) : String :=
  String.mk (s.data.map (fun ch => if ch = ' ' || ch = '/' then '_' else ch))

/-- One histogram artifact of `save_distribution_histograms` (lines 13–64)
together with the per-column kernel-density-overlay decision.  The embedding
models the repository's own numpy KDE (the `except ImportError` branch; the
`try` branch delegates the overlay to the external `scipy.stats.gaussian_kde`
collaborator, whose default factor is the same `n^(−1/5)`).  The bandwidth is
`bw = std·n^(−1/5)` with `std = √(S/(n−1))`; since `n ≥ 2`, `bw > 0` holds
exactly when the sample variance `S/(n−1)` is positive, which is what
`overlayDrawn` decides. -/
structure HistEntry where
  col : String
  path : String
  n : ℕ
  sampleVar : ℚ
  overlayDrawn : Bool
deriving DecidableEq

/-- `save_distribution_histograms(filepath, output_dir)` (per-column artifact
records; the JSON result lists the paths).  Numeric columns with fewer than
two non-missing values are skipped entirely. -/
def save_distribution_histograms (df : DataFrame) : List HistEntry :=
  (numericCols df).filterMap (fun c =>
    let vals := c.numData
    if vals.length < 2 then none
    else
      let sv := centeredSS vals / ((vals.length : ℚ) - 1)
      some { col := c.name
             path := "hist_" ++ sanitize c.name ++ ".png"
             n := vals.length
             sampleVar := sv
             overlayDrawn := decide (0 < sv) })

/-- The resampling-period argument of `save_time_series_chart`, per its tool
contract (any other string would make `DataFrame.resample` raise inside the
excluded plotting path). -/
inductive AggPeriod where
  | ME | W | D | NONE
deriving DecidableEq

/-- Successful payload of `save_time_series_chart`; `rowDates` is the date
index of the plotted frame (parsed dates of the kept rows, ascending). -/
structure TSPayload where
  path : String
  date_col : String
  agg_period : AggPeriod
  columns_plotted : List String
  rowDates : List ℤ
deriving DecidableEq

inductive TSResult where
  | err : String → TSResult
  | ok : TSPayload → TSResult
deriving DecidableEq

/-- `pd.to_datetime(df[date_col], errors="coerce")`: missing cells and
unparseable values become NaT (`none`). -/
def parsedDates (parse : Value → Option ℤ) (c : Col) : List (Option ℤ) :=
  c.values.map (fun v => if v.isNa then none else parse v)

/-- The numeric columns remaining after the date column becomes the index. -/
def tsNumericNames (df : DataFrame) (date_col : String) : List String :=
  (df.cols.filter (fun d => d.name ≠ date_col && d.isNumeric)).map Col.name

/-- Resolution of the `value_cols` argument: all numeric columns capped at
5, or the explicit names filtered to numeric columns present. -/
def tsColsToPlot (df : DataFrame) (date_col : String) : ColumnSelector → List String
  | .allNumeric => (tsNumericNames df date_col).take 5
  | .explicitCols ns => ns.filter (fun nm => nm ∈ tsNumericNames df date_col)

/-- `save_time_series_chart(filepath, output_dir, date_col, value_cols,
agg_period)` (lines 403–488).  `pd.to_datetime(·, errors="coerce")` is
abstracted as a `parse` function into day ordinals (`none` = NaT); missing
cells never parse.  The 20% check compares the NaT fraction over all rows
(`0/0` gives NaN, and `NaN > 0.20` is `False`, matching `0/0 = 0` on ℚ).
Unparseable rows are dropped, rows are sorted ascending by parsed date, the
date column becomes the index, and `value_cols` resolves to all remaining
numeric columns capped at 5 (`ALL_NUMERIC`) or to the given names filtered to
numeric columns present. -/
def save_time_series_chart (parse : Value → Option ℤ) (df : DataFrame)
    (date_col : String) (value_cols : ColumnSelector) (agg_period : AggPeriod) :
    TSResult :=
  match df.findCol date_col with
  | none => .err ("date_col " ++ date_col ++ " not found in columns")
  | some c =>
    let natCount := ((parsedDates parse c).filter Option.isNone).length
    if (1/5 : ℚ) < (natCount : ℚ) / (df.nrows : ℚ) then
      .err ("date_col " ++ date_col ++ " has unparseable values — skipped")
    else
      let colsToPlot := tsColsToPlot df date_col value_cols
      if colsToPlot.isEmpty then .err "No valid numeric columns to plot"
      else .ok
        { path := "timeseries_" ++ sanitize date_col ++ ".png"
          date_col := date_col
          agg_period := agg_period
          columns_plotted := colsToPlot
          rowDates := List.insertionSort (· ≤ ·) ((parsedDates parse c).filterMap id) }

/-- Successful payload of `save_scatter_with_regression`; `hue` records the
rendering decision (`some color_col` when the scatter is colored by
category).  The JSON payload rounds the three statistics to four decimals
(`slope_out`, `intercept_out`, `r2_out`); the unrounded fields are the values
computed and used for the regression line and annotation. -/
structure ScatterPayload where
  path : String
  hue : Option String
  slope : ℚ
  intercept : ℚ
  r_squared : ℚ
  slope_out : ℚ
  intercept_out : ℚ
  r2_out : ℚ
deriving DecidableEq

inductive ScatterResult where
  | err : String → ScatterResult
  | ok : ScatterPayload → ScatterResult
deriving DecidableEq

/-- Row indices kept by `df[subset_cols].dropna()`: those where every listed
column is non-missing.  (An absent name never occurs in `subset_cols`.) -/
def keptIndices (df : DataFrame) (names : List String) : List ℕ :=
  (List.range df.nrows).filter (fun i =>
    names.all (fun nm =>
      match df.findCol nm with
      | some c => !(c.values.getD i .na).isNa
      | none => true))

/-- The numeric values of column `nm` on the kept rows. -/
def colOnRows (df : DataFrame) (nm : String) (rows : List ℕ) : List ℚ :=
  rows.map (fun i =>
    match df.findCol nm with
    | some c => ((c.values.getD i .na).toNum).getD 0
    | none => 0)

/-- `is_string_dtype(df[col])` for a `read_csv` frame: true for object
columns (any column that did not parse numerically). -/
def Col.isStringLike (c : Col) : Bool := !c.isNumeric

/-- The `subset_cols` of `save_scatter_with_regression`: the color column is
included only when it is not the `'NONE'` sentinel and is present. -/
def scatterSubset (df : DataFrame) (x_col y_col color_col : String) : List String :=
  if color_col ≠ "NONE" && (df.findCol color_col).isSome
  then [x_col, y_col, color_col] else [x_col, y_col]

/-- `Σ (x − x̄)(y − ȳ)` over paired data. -/
def crossSS (xs ys : List ℚ) : ℚ :=
  ((xs.zip ys).map (fun p => (p.1 - listMean xs) * (p.2 - listMean ys))).sum

/-- The residual sum of squares of the line `y = s·x + b` on paired data
(`ss_res` in the source, for the fitted slope and intercept). -/
def fitSS (xs ys : List ℚ) (s b : ℚ) : ℚ :=
  ((xs.zip ys).map (fun p => (p.2 - (s * p.1 + b)) ^ 2)).sum

/-- `save_scatter_with_regression(filepath, output_dir, x_col, y_col,
color_col)` (lines 492–588).  `none` models the rank-deficient case
`Σ(x−x̄)² = 0` on the kept rows, where `np.polyfit` falls back to an
SVD-based least-norm fit whose outcome is decided by floating-point cutoffs
(not representable in exact arithmetic); on full-rank input `np.polyfit`
computes the exact least-squares line, embedded in closed form. -/
def save_scatter_with_regression (df : DataFrame) (x_col y_col color_col : String) :
    Option ScatterResult :=
  let xOk := match df.findCol x_col with
    | some c => c.isNumeric
    | none => false
  let yOk := match df.findCol y_col with
    | some c => c.isNumeric
    | none => false
  if !xOk then some (.err ("x_col " ++ x_col ++ " is not a numeric column"))
  else if !yOk then some (.err ("y_col " ++ y_col ++ " is not a numeric column"))
  else
    let rows := keptIndices df (scatterSubset df x_col y_col color_col)
    if rows.length < 5 then
      some (.err "Fewer than 5 non-null rows after dropping NAs — skipped")
    else
      let x := colOnRows df x_col rows
      let y := colOnRows df y_col rows
      let sxx := centeredSS x
      if sxx = 0 then none
      else
        let slope := crossSS x y / sxx
        let intercept := listMean y - slope * listMean x
        let ssRes := fitSS x y slope intercept
        let ssTot := centeredSS y
        let r2 := if ssTot ≠ 0 then 1 - ssRes / ssTot else 0
        let useColor :=
          color_col ≠ "NONE" &&
          (match df.findCol color_col with
           | some c => c.isStringLike && decide (c.nunique ≤ 12)
           | none => false)
        some (.ok
          { path := "scatter_" ++ sanitize x_col ++ "_vs_" ++ sanitize y_col ++ ".png"
            hue := if useColor then some color_col else none
            slope := slope
            intercept := intercept
            r_squared := r2
            slope_out := round4 slope
            intercept_out := round4 intercept
            r2_out := round4 r2 })

/-! ## Result accessors and concrete test datasets -/

def VCResult.getOk : VCResult → Option VCPayload
  | .errNotFound _ => none
  | .ok p => some p

def TSResult.getOk : TSResult → Option TSPayload
  | .err _ => none
  | .ok p => some p

/-- Shorthand for a fully numeric column. -/
def numCol (name : String) (qs : List (Option ℚ)) : Col :=
  { name := name, values := qs.map (fun q => match q with | some v => .num v | none => .na) }

/-- Shorthand for a string column. -/
def strCol (name : String) (ss : List (Option String)) : Col :=
  { name := name
    values := ss.map (fun s => match s with | some v => .str v | none => .na) }

/-- 5 rows, one numeric column with a large outlier and one missing cell. -/
def dfOutlier : DataFrame :=
  { cols := [numCol "v" [some 1, some 2, some 3, some 100, none]], nrows := 5 }

/-- 2 rows, two numeric columns, `a` constant (zero variance). -/
def dfConstCol : DataFrame :=
  { cols := [numCol "a" [some 1, some 1], numCol "b" [some 1, some 2]], nrows := 2 }

/-- 2 rows, two non-constant numeric columns. -/
def dfTwoNum : DataFrame :=
  { cols := [numCol "a" [some 1, some 2], numCol "b" [some 1, some 3]], nrows := 2 }

/-- Stats witness frame: a numeric column with a missing cell and an
all-missing column. -/
def dfStats : DataFrame :=
  { cols := [numCol "x" [some 3, none, some 5], numCol "empty" [none, none, none]]
    nrows := 3 }

/-- C4 frame: an all-missing numeric column and a string column. -/
def dfRaise : DataFrame :=
  { cols := [numCol "a" [none, none], strCol "s" [some "u", some "w"]], nrows := 2 }

/-- 6 rows of a categorical column with counts 4, 1, 1. -/
def dfCat : DataFrame :=
  { cols := [strCol "v" [some "a", some "a", some "a", some "a", some "b", some "c"]]
    nrows := 6 }

/-- A string column whose 20 values contain exactly 16 date-shaped strings. -/
def dfDates16 : DataFrame :=
  { cols := [strCol "d" ((List.range 16).map (fun i =>
      some ("2020-01-" ++ (if i < 9 then "0" else "") ++ toString (i + 1))) ++
      [some "u1", some "u2", some "u3", some "u4"])]
    nrows := 20 }

/-- A string column whose 20 values contain exactly 17 date-shaped strings. -/
def dfDates17 : DataFrame :=
  { cols := [strCol "d" ((List.range 17).map (fun i =>
      some ("2020-01-" ++ (if i < 9 then "0" else "") ++ toString (i + 1))) ++
      [some "u1", some "u2", some "u3"])]
    nrows := 20 }

/-- 5 complete rows with `y = 2x`. -/
def dfLine : DataFrame :=
  { cols := [numCol "x" [some 1, some 2, some 3, some 4, some 5],
             numCol "y" [some 2, some 4, some 6, some 8, some 10]]
    nrows := 5 }

/-- Time-series witness frame: an unsorted date-string column, a numeric
column, and one unparseable date. -/
def dfTime : DataFrame :=
  { cols := [strCol "t" [some "d3", some "d1", some "bad", some "d2", some "d4"],
             numCol "m" [some 1, some 2, some 3, some 4, some 5]]
    nrows := 5 }

/-- A date parser for `dfTime`: `dk ↦ k`, everything else NaT. -/
def parseW : Value → Option ℤ
  | .str "d1" => some 1
  | .str "d2" => some 2
  | .str "d3" => some 3
  | .str "d4" => some 4
  | _ => none

/-- Histogram witness frame: a constant numeric column, a non-constant one,
and a single-value one. -/
def dfHist : DataFrame :=
  { cols := [numCol "u" [some 1, some 1], numCol "w" [some 1, some 2],
             numCol "z" [some 1, none]]
    nrows := 2 }

/-! # Theorems

Helper lemmas first, then one theorem per claim (with witnesses and
counterexamples as separate closed theorems). -/

theorem getD_mono_of_sorted {xs : List ℚ} (hs : List.Sorted (· ≤ ·) xs)
    {i j : ℕ} (hij : i ≤ j) (hj : j < xs.length) :
    xs.getD i 0 ≤ xs.getD j 0 := by
  have hi : i < xs.length := lt_of_le_of_lt hij hj
  rw [List.getD_eq_getElem xs 0 hi, List.getD_eq_getElem xs 0 hj]
  rcases lt_or_eq_of_le hij with h | h
  · exact List.pairwise_iff_getElem.mp hs i j hi hj h
  · subst h; exact le_refl _

theorem interpSorted_mono {xs : List ℚ} (hs : List.Sorted (· ≤ ·) xs)
    {h₁ h₂ : ℚ} (h0 : 0 ≤ h₁) (h12 : h₁ ≤ h₂) (hup : h₂ ≤ (xs.length : ℚ) - 1) :
    interpSorted xs h₁ ≤ interpSorted xs h₂ := by
  have h0' : (0 : ℚ) ≤ h₂ := le_trans h0 h12
  have hf1 : (0 : ℤ) ≤ ⌊h₁⌋ := Int.floor_nonneg.mpr h0
  have hf2 : (0 : ℤ) ≤ ⌊h₂⌋ := Int.floor_nonneg.mpr h0'
  have e1 : (((⌊h₁⌋).toNat : ℕ) : ℚ) = ((⌊h₁⌋ : ℤ) : ℚ) := by
    exact_mod_cast congrArg (Int.cast : ℤ → ℚ) (Int.toNat_of_nonneg hf1)
  have e2 : (((⌊h₂⌋).toNat : ℕ) : ℚ) = ((⌊h₂⌋ : ℤ) : ℚ) := by
    exact_mod_cast congrArg (Int.cast : ℤ → ℚ) (Int.toNat_of_nonneg hf2)
  have q1l : (((⌊h₁⌋).toNat : ℕ) : ℚ) ≤ h₁ := by rw [e1]; exact Int.floor_le h₁
  have q1u : h₁ < (((⌊h₁⌋).toNat : ℕ) : ℚ) + 1 := by rw [e1]; exact Int.lt_floor_add_one h₁
  have q2l : (((⌊h₂⌋).toNat : ℕ) : ℚ) ≤ h₂ := by rw [e2]; exact Int.floor_le h₂
  have imono : (⌊h₁⌋).toNat ≤ (⌊h₂⌋).toNat :=
    Int.toNat_le_toNat (Int.floor_le_floor h12)
  have hi2n : (⌊h₂⌋).toNat + 1 ≤ xs.length := by
    have : (((⌊h₂⌋).toNat : ℕ) : ℚ) + 1 ≤ (xs.length : ℚ) := by linarith
    exact_mod_cast this
  unfold interpSorted
  rcases eq_or_lt_of_le imono with heq | hlt
  · -- same base index
    rw [← heq]
    by_cases hg : h₂ = (((⌊h₁⌋).toNat : ℕ) : ℚ)
    · have hh : h₁ = h₂ := le_antisymm h12 (by rw [hg] at h12 ⊢; exact q1l)
      rw [hh]
    · have hgt : (((⌊h₁⌋).toNat : ℕ) : ℚ) < h₂ := by
        rw [heq] at hg ⊢; exact lt_of_le_of_ne q2l (Ne.symm hg)
      have hlt2 : (⌊h₁⌋).toNat + 1 < xs.length := by
        rcases lt_or_eq_of_le (heq ▸ hi2n) with h | h
        · exact h
        · exfalso
          have hcast : (((⌊h₁⌋).toNat : ℕ) : ℚ) + 1 = (xs.length : ℚ) := by exact_mod_cast h
          linarith
      have hD : xs.getD (⌊h₁⌋).toNat 0 ≤ xs.getD ((⌊h₁⌋).toNat + 1) 0 :=
        getD_mono_of_sorted hs (Nat.le_succ _) hlt2
      nlinarith [mul_nonneg (sub_nonneg.mpr h12) (sub_nonneg.mpr hD)]
  · -- strictly larger base index
    have k1 : (⌊h₁⌋).toNat + 1 ≤ (⌊h₂⌋).toNat := hlt
    have v2 : (⌊h₂⌋).toNat < xs.length := lt_of_lt_of_le (Nat.lt_succ_self _) hi2n
    have v1 : (⌊h₁⌋).toNat + 1 < xs.length := lt_of_le_of_lt k1 v2
    have hD1 : xs.getD (⌊h₁⌋).toNat 0 ≤ xs.getD ((⌊h₁⌋).toNat + 1) 0 :=
      getD_mono_of_sorted hs (Nat.le_succ _) v1
    have step1 :
        xs.getD (⌊h₁⌋).toNat 0 +
          (h₁ - (((⌊h₁⌋).toNat : ℕ) : ℚ)) *
            (xs.getD ((⌊h₁⌋).toNat + 1) 0 - xs.getD (⌊h₁⌋).toNat 0) ≤
          xs.getD ((⌊h₁⌋).toNat + 1) 0 := by
      nlinarith [mul_nonneg
        (by linarith : (0:ℚ) ≤ 1 - (h₁ - (((⌊h₁⌋).toNat : ℕ) : ℚ)))
        (sub_nonneg.mpr hD1)]
    have step2 : xs.getD ((⌊h₁⌋).toNat + 1) 0 ≤ xs.getD (⌊h₂⌋).toNat 0 :=
      getD_mono_of_sorted hs k1 v2
    have step3 :
        xs.getD (⌊h₂⌋).toNat 0 ≤
          xs.getD (⌊h₂⌋).toNat 0 +
            (h₂ - (((⌊h₂⌋).toNat : ℕ) : ℚ)) *
              (xs.getD ((⌊h₂⌋).toNat + 1) 0 - xs.getD (⌊h₂⌋).toNat 0) := by
      by_cases hg : h₂ = (((⌊h₂⌋).toNat : ℕ) : ℚ)
      · have hz : h₂ - (((⌊h₂⌋).toNat : ℕ) : ℚ) = 0 := sub_eq_zero.mpr hg
        rw [hz, zero_mul, add_zero]
      · have hgt : (((⌊h₂⌋).toNat : ℕ) : ℚ) < h₂ := lt_of_le_of_ne q2l (Ne.symm hg)
        have hlt2 : (⌊h₂⌋).toNat + 1 < xs.length := by
          rcases lt_or_eq_of_le hi2n with h | h
          · exact h
          · exfalso
            have : (((⌊h₂⌋).toNat : ℕ) : ℚ) + 1 = (xs.length : ℚ) := by exact_mod_cast h
            linarith
        have hD2 : xs.getD (⌊h₂⌋).toNat 0 ≤ xs.getD ((⌊h₂⌋).toNat + 1) 0 :=
          getD_mono_of_sorted hs (Nat.le_succ _) hlt2
        nlinarith [mul_nonneg
          (by linarith : (0:ℚ) ≤ h₂ - (((⌊h₂⌋).toNat : ℕ) : ℚ))
          (sub_nonneg.mpr hD2)]
    exact le_trans step1 (le_trans step2 step3)

theorem quantileSorted_mono {xs : List ℚ} (hs : List.Sorted (· ≤ ·) xs)
    (hne : xs ≠ []) {p₁ p₂ : ℚ} (hp0 : 0 ≤ p₁) (hp12 : p₁ ≤ p₂) (hp1 : p₂ ≤ 1) :
    quantileSorted xs p₁ ≤ quantileSorted xs p₂ := by
  have hn : 1 ≤ xs.length := List.length_pos.mpr hne
  have hnq : (1 : ℚ) ≤ (xs.length : ℚ) := by exact_mod_cast hn
  unfold quantileSorted
  apply interpSorted_mono hs
  · exact mul_nonneg hp0 (by linarith)
  · exact mul_le_mul_of_nonneg_right hp12 (by linarith)
  · calc p₂ * ((xs.length : ℚ) - 1) ≤ 1 * ((xs.length : ℚ) - 1) :=
        mul_le_mul_of_nonneg_right hp1 (by linarith)
    _ = (xs.length : ℚ) - 1 := one_mul _

theorem pyQuantile_mono (xs : List ℚ) (hne : xs ≠ []) {p₁ p₂ : ℚ}
    (hp0 : 0 ≤ p₁) (hp12 : p₁ ≤ p₂) (hp1 : p₂ ≤ 1) :
    pyQuantile xs p₁ ≤ pyQuantile xs p₂ := by
  unfold pyQuantile
  have hperm := List.perm_insertionSort (· ≤ ·) xs
  have hne2 : List.insertionSort (· ≤ ·) xs ≠ [] := by
    intro h
    rw [h] at hperm
    exact hne hperm.symm.eq_nil
  exact quantileSorted_mono (List.sorted_insertionSort (· ≤ ·) xs) hne2 hp0 hp12 hp1

/-- C1: for a present, numeric column with at least one non-missing value,
`detect_outliers_iqr` reports `q1`/`q3` as the linear-interpolation 25th/75th
percentiles of the non-missing values, `iqr = q3 − q1`, the Tukey fences
`q1 − 1.5·iqr` and `q3 + 1.5·iqr` (hence
`lower_fence ≤ q1 ≤ q3 ≤ upper_fence`), and `outlier_count` counting exactly
the non-missing values strictly outside the fences. -/
theorem detect_outliers_iqr_spec (df : DataFrame) (column : String) (c : Col)
    (hfind : df.findCol column = some c) (hnum : c.isNumeric = true)
    (hne : c.numData ≠ []) :
    ∃ r, detect_outliers_iqr df column = some (.report r) ∧
      r.q1 = pyQuantile c.numData (1/4) ∧
      r.q3 = pyQuantile c.numData (3/4) ∧
      r.iqr = r.q3 - r.q1 ∧
      r.lower_fence = r.q1 - 3/2 * r.iqr ∧
      r.upper_fence = r.q3 + 3/2 * r.iqr ∧
      r.lower_fence ≤ r.q1 ∧ r.q1 ≤ r.q3 ∧ r.q3 ≤ r.upper_fence ∧
      r.outlier_count = (c.numData.filter
        (fun x => decide (x < r.lower_fence) || decide (r.upper_fence < x))).length := by
  have hq : pyQuantile c.numData (1/4) ≤ pyQuantile c.numData (3/4) :=
    pyQuantile_mono _ hne (by norm_num) (by norm_num) (by norm_num)
  have hlen : ¬ (c.numData.length = 0) := by simpa using hne
  have hres : detect_outliers_iqr df column = some (.report
      { q1 := pyQuantile c.numData (1/4)
        q3 := pyQuantile c.numData (3/4)
        iqr := pyQuantile c.numData (3/4) - pyQuantile c.numData (1/4)
        lower_fence := pyQuantile c.numData (1/4) -
          3/2 * (pyQuantile c.numData (3/4) - pyQuantile c.numData (1/4))
        upper_fence := pyQuantile c.numData (3/4) +
          3/2 * (pyQuantile c.numData (3/4) - pyQuantile c.numData (1/4))
        outlier_count := (c.numData.filter (fun x =>
          decide (x < pyQuantile c.numData (1/4) -
            3/2 * (pyQuantile c.numData (3/4) - pyQuantile c.numData (1/4))) ||
          decide (pyQuantile c.numData (3/4) +
            3/2 * (pyQuantile c.numData (3/4) - pyQuantile c.numData (1/4)) < x))).length
        outlier_pct := round2 (((c.numData.filter (fun x =>
          decide (x < pyQuantile c.numData (1/4) -
            3/2 * (pyQuantile c.numData (3/4) - pyQuantile c.numData (1/4))) ||
          decide (pyQuantile c.numData (3/4) +
            3/2 * (pyQuantile c.numData (3/4) - pyQuantile c.numData (1/4)) < x))).length : ℚ)
          / (c.numData.length : ℚ) * 100)
        outlier_sample := (c.numData.filter (fun x =>
          decide (x < pyQuantile c.numData (1/4) -
            3/2 * (pyQuantile c.numData (3/4) - pyQuantile c.numData (1/4))) ||
          decide (pyQuantile c.numData (3/4) +
            3/2 * (pyQuantile c.numData (3/4) - pyQuantile c.numData (1/4)) < x))).take 10 }) := by
    simp only [detect_outliers_iqr, hfind, hnum, Bool.not_true, Bool.false_eq_true,
      if_false, if_neg hlen]
  exact ⟨_, hres, rfl, rfl, rfl, rfl, rfl, by dsimp only; linarith, by dsimp only; exact hq,
    by dsimp only; linarith, rfl⟩

unseal Rat.add Rat.mul Rat.sub Rat.inv in
/-- Witness for C1 at a concrete dataset. -/
theorem detect_outliers_iqr_spec_witness :
    ∃ r, detect_outliers_iqr dfOutlier "v" = some (.report r) ∧
      r.lower_fence ≤ r.q1 ∧ r.q1 ≤ r.q3 ∧ r.q3 ≤ r.upper_fence := by
  obtain ⟨r, h1, _, _, _, _, _, h7, h8, h9, _⟩ :=
    detect_outliers_iqr_spec dfOutlier "v"
      (numCol "v" [some 1, some 2, some 3, some 100, none])
      (by decide) (by decide) (by decide)
  exact ⟨r, h1, h7, h8, h9⟩

/-- C4: contrary to the propagation policy, two operations can raise instead
of returning a structured result.  `detect_outliers_iqr` on a numeric column
whose values are all missing reaches `len(outliers) / len(series)` with both
lengths 0 and raises `ZeroDivisionError`; `compute_descriptive_stats` given
an explicit list naming a present non-numeric column reaches
`series.mean()` on object dtype and raises `TypeError`.  Both escapes are
modelled as `none`. -/
theorem operations_raise_on_degenerate_inputs :
    detect_outliers_iqr dfRaise "a" = none ∧
    compute_descriptive_stats dfRaise (.explicitCols ["s"]) = none := by
  exact ⟨by decide, by decide⟩

theorem numData_split (vs : List Value)
    (h : ∀ v ∈ vs, (v.isNa || v.toNum.isSome) = true) :
    (vs.filterMap Value.toNum).length + (vs.filter Value.isNa).length = vs.length := by
  induction vs with
  | nil => simp
  | cons v rest ih =>
    have hv := h v (List.mem_cons_self v rest)
    have hrest : ∀ w ∈ rest, (w.isNa || w.toNum.isSome) = true :=
      fun w hw => h w (List.mem_cons_of_mem v hw)
    cases v with
    | na =>
      have hr := ih hrest
      simp [Value.toNum, Value.isNa]
      omega
    | num q =>
      have hr := ih hrest
      simp [Value.toNum, Value.isNa]
      omega
    | str s =>
      exfalso
      simp [Value.isNa, Value.toNum] at hv

theorem descLoop_mem (df : DataFrame) :
    ∀ (names : List String) (acc res : List (String × DescStats)),
    descLoop df names acc = some res → ∀ p ∈ res, p ∈ acc ∨
      ∃ c, df.findCol p.1 = some c ∧ c.isNumeric = true ∧ c.dropna ≠ [] ∧
        p.2 = mkStats c := by
  intro names
  induction names with
  | nil =>
    intro acc res h p hp
    simp only [descLoop, Option.some.injEq] at h
    subst h
    exact Or.inl hp
  | cons name rest ih =>
    intro acc res h p hp
    simp only [descLoop] at h
    split at h
    · exact ih acc res h p hp
    · rename_i c hfind
      split at h
      · exact ih acc res h p hp
      · rename_i hlen
        split at h
        · rename_i hnum
          rcases ih _ _ h p hp with hacc | hex
          · rcases List.mem_append.mp hacc with h1 | h2
            · exact Or.inl h1
            · right
              have hpe : p = (name, mkStats c) := by simpa using h2
              refine ⟨c, ?_, hnum, ?_, ?_⟩
              · rw [hpe]; exact hfind
              · intro hnil; exact hlen (by rw [hnil]; rfl)
              · rw [hpe]
          · exact Or.inr hex
        · exact absurd h (by simp)

theorem descLoop_total (df : DataFrame) :
    ∀ (names : List String) (acc : List (String × DescStats)),
    (∀ name ∈ names, ∀ c, df.findCol name = some c → c.dropna ≠ [] →
      c.isNumeric = true) →
    (descLoop df names acc).isSome = true := by
  intro names
  induction names with
  | nil => intro acc _; simp [descLoop]
  | cons name rest ih =>
    intro acc hguard
    have hrest : ∀ nm ∈ rest, ∀ c, df.findCol nm = some c → c.dropna ≠ [] →
        c.isNumeric = true :=
      fun nm hnm => hguard nm (List.mem_cons_of_mem name hnm)
    simp only [descLoop]
    split
    · exact ih acc hrest
    · rename_i c hfind
      split
      · exact ih acc hrest
      · rename_i hlen
        have hnum : c.isNumeric = true :=
          hguard name (List.mem_cons_self name rest) c hfind
            (fun hnil => hlen (by rw [hnil]; rfl))
        rw [if_pos hnum]
        exact ih _ hrest

/-- C3: whenever `compute_descriptive_stats` returns a result, every entry
satisfies `count + missing = nrows`, every entry names a present column with
at least one non-missing value (so absent and all-missing columns are
omitted), and if every selected present-with-data column is numeric the
operation does return a result (absence and all-missingness alone never
produce an error). -/
theorem compute_descriptive_stats_spec (df : DataFrame) (sel : ColumnSelector)
    (hwf : df.WF) :
    (∀ res, compute_descriptive_stats df sel = some res →
      (∀ p ∈ res, p.2.count + p.2.missing = df.nrows) ∧
      (∀ p ∈ res, ∃ c, df.findCol p.1 = some c ∧ c.dropna ≠ [])) ∧
    ((∀ name ∈ resolveSelector df sel, ∀ c, df.findCol name = some c →
        c.dropna ≠ [] → c.isNumeric = true) →
      (compute_descriptive_stats df sel).isSome = true) := by
  constructor
  · intro res hres
    have hmem := descLoop_mem df (resolveSelector df sel) [] res hres
    constructor
    · intro p hp
      rcases hmem p hp with hacc | ⟨c, hfind, hnum, _, hstats⟩
      · simp at hacc
      · have hcmem : c ∈ df.cols := List.mem_of_find?_eq_some hfind
        have hlen : c.values.length = df.nrows := hwf.1 c hcmem
        have hall : ∀ v ∈ c.values, (v.isNa || v.toNum.isSome) = true := by
          have := hnum
          unfold Col.isNumeric at this
          rw [List.all_eq_true] at this
          exact fun v hv => this v hv
        have hsplit := numData_split c.values hall
        rw [hstats]
        show c.numData.length + (c.values.filter Value.isNa).length = df.nrows
        rw [← hlen]
        exact hsplit
    · intro p hp
      rcases hmem p hp with hacc | ⟨c, hfind, _, hne, _⟩
      · simp at hacc
      · exact ⟨c, hfind, hne⟩
  · intro hguard
    exact descLoop_total df _ [] hguard

unseal Rat.add Rat.mul Rat.sub Rat.inv in
/-- Witness for C3 at a concrete dataset (present column with a missing cell,
an absent column, and an all-missing column in the explicit selection). -/
theorem compute_descriptive_stats_spec_witness :
    (compute_descriptive_stats dfStats
      (.explicitCols ["x", "gone", "empty"])).isSome = true ∧
    (mkStats (numCol "x" [some 3, none, some 5])).count +
      (mkStats (numCol "x" [some 3, none, some 5])).missing = 3 := by
  constructor
  · exact (compute_descriptive_stats_spec dfStats
      (.explicitCols ["x", "gone", "empty"]) (by decide)).2 (by decide)
  · have h := (compute_descriptive_stats_spec dfStats
      (.explicitCols ["x", "gone", "empty"]) (by decide)).1
      [("x", mkStats (numCol "x" [some 3, none, some 5]))] (by decide)
    exact h.1 ("x", mkStats (numCol "x" [some 3, none, some 5])) (by decide)

theorem pairedData_swap (xs ys : List Value) :
    pairedData ys xs = (pairedData xs ys).map Prod.swap := by
  induction xs generalizing ys with
  | nil => cases ys <;> simp [pairedData]
  | cons x xt ih =>
    cases ys with
    | nil => simp [pairedData]
    | cons y yt =>
      have ih2 := ih yt
      cases hx : x.toNum with
      | none =>
        cases hy : y.toNum with
        | none => simpa [pairedData, hx, hy] using ih2
        | some b => simpa [pairedData, hx, hy] using ih2
      | some a =>
        cases hy : y.toNum with
        | none => simpa [pairedData, hx, hy] using ih2
        | some b => simpa [pairedData, hx, hy] using ih2

theorem list_map_ext {α β : Type} (l : List α) {f g : α → β} (h : ∀ a, f a = g a) :
    l.map f = l.map g := by rw [funext h]

theorem pairSums_swap (ps : List (ℚ × ℚ)) :
    pairSums (ps.map Prod.swap) =
      ((pairSums ps).2.1, (pairSums ps).1, (pairSums ps).2.2) := by
  simp only [pairSums, List.length_map, List.map_map, Prod.mk.injEq]
  have hfst : (Prod.fst ∘ Prod.swap : ℚ × ℚ → ℚ) = Prod.snd := rfl
  have hsnd : (Prod.snd ∘ Prod.swap : ℚ × ℚ → ℚ) = Prod.fst := rfl
  rw [hfst, hsnd]
  refine ⟨rfl, rfl, ?_⟩
  exact congrArg List.sum (list_map_ext ps (fun p => mul_comm _ _))

theorem nancorr_comm (xs ys : List Value) : nancorr ys xs = nancorr xs ys := by
  unfold nancorr
  rw [pairedData_swap xs ys]
  simp only [List.length_map]
  by_cases hl : (pairedData xs ys).length = 0
  · simp [hl]
  · rw [if_neg hl, if_neg hl, pairSums_swap]
    by_cases hz : (pairSums (pairedData xs ys)).1 * (pairSums (pairedData xs ys)).2.1 = 0
    · rw [if_pos (by rw [mul_comm]; exact hz), if_pos hz]
    · rw [if_neg (by rw [mul_comm]; exact hz), if_neg hz, mul_comm]

theorem pairedData_self (v : List Value) :
    pairedData v v = (v.filterMap Value.toNum).map (fun a => (a, a)) := by
  induction v with
  | nil => simp [pairedData]
  | cons x t ih =>
    cases hx : x.toNum with
    | none => simpa [pairedData, hx] using ih
    | some a => simpa [pairedData, hx] using ih

theorem pairSums_diag (l : List ℚ) :
    pairSums (l.map (fun a => (a, a))) =
      (centeredSS l, centeredSS l, centeredSS l) := by
  simp only [pairSums, List.length_map, List.map_map, Prod.mk.injEq,
    centeredSS, listMean]
  have hfst : ((Prod.fst ∘ fun a : ℚ => (a, a)) : ℚ → ℚ) = id := rfl
  have hsnd : ((Prod.snd ∘ fun a : ℚ => (a, a)) : ℚ → ℚ) = id := rfl
  rw [hfst, hsnd, List.map_id]
  refine ⟨rfl, rfl, ?_⟩
  exact congrArg List.sum (list_map_ext l (fun a => by
    simp only [Function.comp_apply]
    ring))

theorem centeredSS_nonneg (l : List ℚ) : 0 ≤ centeredSS l := by
  apply List.sum_nonneg
  intro x hx
  rcases List.mem_map.mp hx with ⟨a, _, rfl⟩
  positivity

theorem nancorr_self (v : List Value) (hS : centeredSS (v.filterMap Value.toNum) ≠ 0) :
    nancorr v v = .rval (centeredSS (v.filterMap Value.toNum))
      (centeredSS (v.filterMap Value.toNum) * centeredSS (v.filterMap Value.toNum)) := by
  have hne : v.filterMap Value.toNum ≠ [] := by
    intro h
    apply hS
    rw [h]
    simp [centeredSS]
  unfold nancorr
  rw [pairedData_self]
  have hlen : ¬ ((v.filterMap Value.toNum).map (fun a => (a, a))).length = 0 := by
    simpa using fun h => hne (List.length_eq_zero.mp h)
  rw [if_neg hlen, pairSums_diag]
  rw [if_neg (by simpa [mul_self_eq_zero] using hS)]

theorem rval_diag_represents_one (S : ℚ) (h : 0 < S) :
    (CorrEntry.rval S (S * S)).represents 1 := by
  refine ⟨mul_pos h h, ?_⟩
  have hcast : ((S * S : ℚ) : ℝ) = (S : ℝ) * (S : ℝ) := by push_cast; ring
  rw [one_mul, hcast, Real.sqrt_mul_self (by exact_mod_cast h.le)]

theorem lookup_map_self {α : Type} (l : List Col) (f : Col → α) (c : Col)
    (hc : c ∈ l) (hnd : (l.map Col.name).Nodup) :
    List.lookup c.name (l.map (fun a => (a.name, f a))) = some (f c) := by
  induction l with
  | nil => simp at hc
  | cons a t ih =>
    rcases List.mem_cons.mp hc with rfl | hct
    · simp [List.lookup]
    · have hnd2 : (t.map Col.name).Nodup := (List.nodup_cons.mp hnd).2
      have hne : ¬ (c.name == a.name) = true := by
        intro hbeq
        have heq : c.name = a.name := by simpa using hbeq
        exact (List.nodup_cons.mp hnd).1 (heq ▸ List.mem_map_of_mem Col.name hct)
      simp only [List.map_cons, List.lookup, hne]
      exact ih hct hnd2

theorem lookup_map_none {α : Type} (l : List Col) (f : Col → α) (nm : String)
    (h : nm ∉ l.map Col.name) :
    List.lookup nm (l.map (fun a => (a.name, f a))) = none := by
  induction l with
  | nil => simp
  | cons a t ih =>
    have h1 : nm ≠ a.name := fun he => h (by simp [he])
    have h2 : nm ∉ t.map Col.name := fun he => h (by simp [he])
    have hne : ¬ (nm == a.name) = true := by simpa using h1
    simp only [List.map_cons, List.lookup, hne]
    exact ih h2

unseal Rat.add Rat.mul Rat.sub Rat.inv in
/-- C2 counterexample: on a dataset whose two numeric columns include the
constant column `a`, the operation succeeds but the diagonal cell of `a` is
NaN (pandas `nancorr` yields NaN whenever a variance is zero), which does
not denote 1.0. -/
theorem correlation_diag_nan_counterexample :
    ((compute_correlation_matrix dfConstCol).getOk.map
      (fun m => m.entry "a" "a")) = some (some CorrEntry.nan) ∧
    ¬ (CorrEntry.nan).represents 1 :=
  ⟨by decide, fun h => h⟩

/-- C2 (amended): with at least 2 numeric columns the operation succeeds and
the matrix is symmetric; the diagonal cell of every numeric column whose
non-missing values have nonzero centered sum of squares denotes exactly the
real number 1; with fewer than 2 numeric columns a structured error results.
(Zero-variance columns get a NaN diagonal cell instead — see the
counterexample.) -/
theorem compute_correlation_matrix_spec (df : DataFrame) (hwf : df.WF) :
    (2 ≤ (numericCols df).length →
      ∃ m, compute_correlation_matrix df = .ok m ∧
        (∀ a b, m.entry a b = m.entry b a) ∧
        (∀ c ∈ numericCols df, centeredSS c.numData ≠ 0 →
          ∃ e, m.entry c.name c.name = some e ∧ e.represents 1)) ∧
    ((numericCols df).length < 2 →
      compute_correlation_matrix df = .err "Fewer than 2 numeric columns found") := by
  have hnd : ((numericCols df).map Col.name).Nodup :=
    ((List.filter_sublist df.cols).map Col.name).nodup hwf.2
  constructor
  · intro h2
    have hok : compute_correlation_matrix df = .ok
        { columns := (numericCols df).map Col.name
          matrix := (numericCols df).map (fun a =>
            (a.name, (numericCols df).map
              (fun b => (b.name, nancorr a.values b.values)))) } := by
      unfold compute_correlation_matrix
      rw [if_neg (by omega)]
    refine ⟨_, hok, ?_, ?_⟩
    · -- symmetry
      intro a b
      show (List.lookup a ((numericCols df).map (fun x =>
          (x.name, (numericCols df).map
            (fun y => (y.name, nancorr x.values y.values)))))).bind
          (fun row => List.lookup b row) =
        (List.lookup b ((numericCols df).map (fun x =>
          (x.name, (numericCols df).map
            (fun y => (y.name, nancorr x.values y.values)))))).bind
          (fun row => List.lookup a row)
      by_cases ha : a ∈ (numericCols df).map Col.name
      · rcases List.mem_map.mp ha with ⟨ca, hca, rfl⟩
        rw [lookup_map_self _ _ ca hca hnd]
        by_cases hb : b ∈ (numericCols df).map Col.name
        · rcases List.mem_map.mp hb with ⟨cb, hcb, rfl⟩
          rw [lookup_map_self _ _ cb hcb hnd]
          simp only [Option.some_bind]
          rw [lookup_map_self _ _ cb hcb hnd, lookup_map_self _ _ ca hca hnd,
            nancorr_comm]
        · rw [lookup_map_none _ _ b hb]
          simp only [Option.some_bind, Option.none_bind]
          rw [lookup_map_none _ _ b hb]
      · rw [lookup_map_none _ _ a ha]
        by_cases hb : b ∈ (numericCols df).map Col.name
        · rcases List.mem_map.mp hb with ⟨cb, hcb, rfl⟩
          rw [lookup_map_self _ _ cb hcb hnd]
          simp only [Option.some_bind, Option.none_bind]
          rw [lookup_map_none _ _ a ha]
        · rw [lookup_map_none _ _ b hb]
          rfl
    · -- diagonal
      intro c hc hS
      refine ⟨nancorr c.values c.values, ?_, ?_⟩
      · show (List.lookup c.name ((numericCols df).map (fun x =>
            (x.name, (numericCols df).map
              (fun y => (y.name, nancorr x.values y.values)))))).bind
            (fun row => List.lookup c.name row) = _
        rw [lookup_map_self _ _ c hc hnd]
        simp only [Option.some_bind]
        rw [lookup_map_self _ _ c hc hnd]
      · rw [nancorr_self c.values hS]
        exact rval_diag_represents_one _
          (lt_of_le_of_ne (centeredSS_nonneg _) (Ne.symm hS))
  · intro hlt
    unfold compute_correlation_matrix
    rw [if_pos hlt]

unseal Rat.add Rat.mul Rat.sub Rat.inv in
/-- Witness for C2 at a concrete two-column dataset. -/
theorem compute_correlation_matrix_spec_witness :
    ∃ m, compute_correlation_matrix dfTwoNum = .ok m ∧
      m.entry "a" "b" = m.entry "b" "a" ∧
      ∃ e, m.entry "a" "a" = some e ∧ e.represents 1 := by
  obtain ⟨m, hok, hsym, hdiag⟩ :=
    (compute_correlation_matrix_spec dfTwoNum (by decide)).1 (by decide)
  exact ⟨m, hok, hsym "a" "b",
    hdiag (numCol "a" [some 1, some 2]) (by decide) (by decide)⟩

theorem mem_uniquedAux : ∀ (vs seen : List Value) (a : Value),
    a ∈ uniquedAux vs seen ↔ (a ∈ vs ∧ a ∉ seen) := by
  intro vs
  induction vs with
  | nil => intro seen a; simp [uniquedAux]
  | cons v rest ih =>
    intro seen a
    simp only [uniquedAux]
    by_cases hv : v ∈ seen
    · rw [if_pos hv, ih]
      constructor
      · rintro ⟨ha, hs⟩
        exact ⟨List.mem_cons_of_mem _ ha, hs⟩
      · rintro ⟨ha, hs⟩
        rcases List.mem_cons.mp ha with rfl | h
        · exact absurd hv hs
        · exact ⟨h, hs⟩
    · rw [if_neg hv]
      constructor
      · intro hmem
        rcases List.mem_cons.mp hmem with rfl | hmem2
        · exact ⟨List.mem_cons_self _ _, hv⟩
        · obtain ⟨ha, hs⟩ := (ih (v :: seen) a).mp hmem2
          exact ⟨List.mem_cons_of_mem _ ha, fun h => hs (List.mem_cons_of_mem _ h)⟩
      · rintro ⟨hav, hs⟩
        by_cases hae : a = v
        · subst hae; exact List.mem_cons_self _ _
        · rcases List.mem_cons.mp hav with rfl | ha
          · exact absurd rfl hae
          · refine List.mem_cons_of_mem _ ((ih (v :: seen) a).mpr ⟨ha, ?_⟩)
            intro hmem
            rcases List.mem_cons.mp hmem with rfl | h
            · exact hae rfl
            · exact hs h

theorem nodup_uniquedAux : ∀ (vs seen : List Value), (uniquedAux vs seen).Nodup := by
  intro vs
  induction vs with
  | nil => intro seen; simp [uniquedAux]
  | cons v rest ih =>
    intro seen
    simp only [uniquedAux]
    by_cases hv : v ∈ seen
    · rw [if_pos hv]; exact ih seen
    · rw [if_neg hv]
      refine List.nodup_cons.mpr ⟨?_, ih _⟩
      intro hmem
      exact ((mem_uniquedAux rest (v :: seen) v).mp hmem).2 (List.mem_cons_self _ _)

theorem uniqued_perm_dedup (vs : List Value) : (uniqued vs).Perm vs.dedup := by
  have h1 : (uniqued vs).Nodup := nodup_uniquedAux vs []
  rw [List.perm_ext_iff_of_nodup h1 (List.nodup_dedup vs)]
  intro a
  rw [List.mem_dedup]
  have h2 := mem_uniquedAux vs [] a
  constructor
  · intro h; exact (h2.mp h).1
  · intro h; exact h2.mpr ⟨h, by simp⟩

theorem sum_counts_uniqued (vs : List Value) :
    ((uniqued vs).map (fun v => vs.count v)).sum = vs.length := by
  rw [List.Perm.sum_eq ((uniqued_perm_dedup vs).map (fun v => vs.count v))]
  exact List.sum_map_count_dedup_eq_length vs

theorem sum_valueCountsOf (vs : List Value) :
    ((valueCountsOf vs).map Prod.snd).sum = vs.length := by
  unfold valueCountsOf
  rw [List.Perm.sum_eq ((List.perm_insertionSort
    (fun a b : Value × ℕ => b.2 ≤ a.2)
    ((uniqued vs).map (fun v => (v, vs.count v)))).map Prod.snd)]
  rw [List.map_map]
  exact sum_counts_uniqued vs

theorem take_sum_le (l : List ℕ) (n : ℕ) : (l.take n).sum ≤ l.sum := by
  conv_rhs => rw [← List.take_append_drop n l]
  rw [List.sum_append]
  exact Nat.le_add_right _ _

theorem pct_factor (ns : List ℕ) (t : ℕ) :
    (ns.map (fun (k : ℕ) => (k : ℚ) / (t : ℚ) * 100)).sum
      = (ns.sum : ℚ) * (100 / (t : ℚ)) := by
  induction ns with
  | nil => simp
  | cons a l ih =>
    simp only [List.map_cons, List.sum_cons, ih, Nat.cast_add]
    ring

theorem pct_sum_le (ns : List ℕ) (t : ℕ) (h : ns.sum ≤ t) :
    (ns.map (fun (k : ℕ) => (k : ℚ) / (t : ℚ) * 100)).sum ≤ 100 := by
  rw [pct_factor]
  rcases Nat.eq_zero_or_pos t with rfl | ht
  · simp
  · have ht2 : (0 : ℚ) < (t : ℚ) := by exact_mod_cast ht
    have hc : ((ns.sum : ℕ) : ℚ) ≤ (t : ℚ) := by exact_mod_cast h
    calc ((ns.sum : ℕ) : ℚ) * (100 / (t : ℚ))
        ≤ (t : ℚ) * (100 / (t : ℚ)) :=
          mul_le_mul_of_nonneg_right hc (by positivity)
    _ = 100 := by field_simp

theorem pct_sum_eq (ns : List ℕ) (t : ℕ) (h : ns.sum = t) (ht : t ≠ 0) :
    (ns.map (fun (k : ℕ) => (k : ℚ) / (t : ℚ) * 100)).sum = 100 := by
  rw [pct_factor, h]
  have ht2 : (t : ℚ) ≠ 0 := by exact_mod_cast ht
  field_simp

theorem pct_map_snd (l : List (Value × ℕ)) (t : ℕ) :
    (l.map (fun pr => ((pr.2 : ℕ) : ℚ) / (t : ℚ) * 100)).sum
      = ((l.map Prod.snd).map (fun (k : ℕ) => (k : ℚ) / (t : ℚ) * 100)).sum := by
  rw [List.map_map]
  rfl

unseal Rat.add Rat.mul Rat.sub Rat.inv in
/-- C5 counterexample: with counts 4, 1, 1 over 6 non-missing values, the
reported 2-decimal-rounded percentages are 66.67, 16.67, 16.67, which sum to
100.01 — strictly above 100 — even though `top_n = 3` equals the distinct
count (where the claim asserts the sum is exactly 100). -/
theorem value_counts_pct_counterexample :
    ((compute_value_counts dfCat "v" 3).getOk.map
      (fun p => (p.top_values.map VCEntry.pct).sum)) = some (10001/100) ∧
    ¬ ((10001 : ℚ)/100 ≤ 100) ∧
    (uniqued (strCol "v" [some "a", some "a", some "a", some "a",
      some "b", some "c"]).dropna).length = 3 :=
  ⟨by decide, by norm_num, by decide⟩

/-- C5 (amended): the pre-rounding percentages (count over non-missing
total, times 100) of the returned entries sum to at most 100, with equality
whenever `top_n` is at least the number of distinct non-missing values and
at least one non-missing value exists; the reported `pct` fields are these
values rounded to 2 decimals (which can push the reported sum above 100 —
see the counterexample). -/
theorem compute_value_counts_spec (df : DataFrame) (column : String)
    (top_n : ℕ) (c : Col) (hfind : df.findCol column = some c) :
    ∃ p, compute_value_counts df column top_n = .ok p ∧
      p.total_non_null = c.dropna.length ∧
      (p.top_values.map
        (fun e => (e.count : ℚ) / (p.total_non_null : ℚ) * 100)).sum ≤ 100 ∧
      ((uniqued c.dropna).length ≤ top_n → c.dropna ≠ [] →
        (p.top_values.map
          (fun e => (e.count : ℚ) / (p.total_non_null : ℚ) * 100)).sum = 100) := by
  simp only [compute_value_counts, hfind]
  refine ⟨_, rfl, rfl, ?_, ?_⟩
  · -- sum ≤ 100
    rw [List.map_map]
    show ((((valueCountsOf c.dropna).take top_n).map
      (fun pr => ((pr.2 : ℕ) : ℚ) / ((c.dropna.length : ℕ) : ℚ) * 100)).sum) ≤ 100
    rw [pct_map_snd]
    apply pct_sum_le
    calc (((valueCountsOf c.dropna).take top_n).map Prod.snd).sum
        = (((valueCountsOf c.dropna).map Prod.snd).take top_n).sum := by
          rw [List.map_take]
    _ ≤ ((valueCountsOf c.dropna).map Prod.snd).sum := take_sum_le _ _
    _ = c.dropna.length := sum_valueCountsOf _
  · -- exactly 100 when everything is included
    intro htop hne
    have hlen : (valueCountsOf c.dropna).length = (uniqued c.dropna).length := by
      unfold valueCountsOf
      rw [(List.perm_insertionSort _ _).length_eq, List.length_map]
    have htake : (valueCountsOf c.dropna).take top_n = valueCountsOf c.dropna :=
      List.take_of_length_le (by rw [hlen]; exact htop)
    rw [List.map_map]
    show ((((valueCountsOf c.dropna).take top_n).map
      (fun pr => ((pr.2 : ℕ) : ℚ) / ((c.dropna.length : ℕ) : ℚ) * 100)).sum) = 100
    rw [htake, pct_map_snd]
    exact pct_sum_eq _ _ (sum_valueCountsOf _)
      (fun h => hne (List.length_eq_zero.mp h))

unseal Rat.add Rat.mul Rat.sub Rat.inv in
/-- Witness for C5 at a concrete dataset with `top_n` above the distinct
count. -/
theorem compute_value_counts_spec_witness :
    ∃ p, compute_value_counts dfCat "v" 10 = .ok p ∧
      (p.top_values.map
        (fun e => (e.count : ℚ) / (p.total_non_null : ℚ) * 100)).sum ≤ 100 ∧
      (p.top_values.map
        (fun e => (e.count : ℚ) / (p.total_non_null : ℚ) * 100)).sum = 100 := by
  obtain ⟨p, hok, _, hle, heq⟩ :=
    compute_value_counts_spec dfCat "v" 10
      (strCol "v" [some "a", some "a", some "a", some "a", some "b", some "c"])
      (by decide)
  exact ⟨p, hok, hle, heq (by decide) (by decide)⟩

unseal Rat.add Rat.mul Rat.sub Rat.inv in
/-- C6 counterexample: a string column whose 20-value sample has exactly 16
date-shaped strings (exactly 80%) is classified `categorical`, not
`Datetime` — the code requires the match fraction to be strictly above 0.8
(`mean() > 0.8`), so the claim fails at exactly 80%. -/
theorem schema_exact_80pct_counterexample :
    ((get_column_schema dfDates16).lookup "d").map ColSchema.type =
      some ColType.categorical ∧
    ((dfDates16.findCol "d").map (fun c =>
      ((((c.dropna.take 20).map Value.pyStr).filter dateShape).length,
        ((c.dropna.take 20).map Value.pyStr).length))) = some (16, 20) ∧
    ((16 : ℚ) / 20 < 4/5 → False) :=
  ⟨by decide, by decide, by intro h; norm_num at h⟩

/-- C6 (amended): a string-like (non-numeric-dtype) column whose sample of
up to 20 non-missing values (rendered as strings) matches the date-shape
pattern on *strictly more than* 80% of the sample is classified `Datetime`.
(At exactly 80% the column is not classified `Datetime` — see the
counterexample.) -/
theorem get_column_schema_datetime_rule (df : DataFrame) (c : Col)
    (hwf : df.WF) (hc : c ∈ df.cols) (hstr : c.isNumeric = false)
    (hfrac : (4 : ℚ)/5 <
      (((((c.dropna.take 20).map Value.pyStr).filter dateShape).length : ℕ) : ℚ) /
      ((((c.dropna.take 20).map Value.pyStr).length : ℕ) : ℚ)) :
    ∃ s, (get_column_schema df).lookup c.name = some s ∧ s.type = .datetime := by
  have hlook : (get_column_schema df).lookup c.name = some (schemaOf df c) :=
    lookup_map_self df.cols (schemaOf df) c hc hwf.2
  refine ⟨schemaOf df c, hlook, ?_⟩
  set sample := (c.dropna.take 20).map Value.pyStr with hsample
  have hLpos : 0 < sample.length := by
    by_contra hL
    have hL0 : sample.length = 0 := by omega
    rw [hL0] at hfrac
    have : ((sample.filter dateShape).length : ℚ) / ((0 : ℕ) : ℚ) = 0 := by
      simp
    rw [this] at hfrac
    norm_num at hfrac
  have hcond : 4 * sample.length < 5 * (sample.filter dateShape).length := by
    have hLq : (0 : ℚ) < (sample.length : ℚ) := by exact_mod_cast hLpos
    rw [div_lt_div_iff₀ (by norm_num) hLq] at hfrac
    have : (4 : ℚ) * (sample.length : ℚ) <
        ((sample.filter dateShape).length : ℚ) * 5 := hfrac
    have hcast : ((4 * sample.length : ℕ) : ℚ) <
        ((5 * (sample.filter dateShape).length : ℕ) : ℚ) := by
      push_cast
      linarith
    exact_mod_cast hcast
  show (schemaOf df c).type = .datetime
  unfold schemaOf
  simp only [hstr, Bool.false_eq_true, if_false, ← hsample, if_pos hcond]

unseal Rat.add Rat.mul Rat.sub Rat.inv in
/-- Witness for C6 (amended) at a concrete 17-of-20 date-shaped column. -/
theorem get_column_schema_datetime_rule_witness :
    ∃ s, (get_column_schema dfDates17).lookup "d" = some s ∧
      s.type = .datetime := by
  obtain ⟨s, hlook, hty⟩ := get_column_schema_datetime_rule dfDates17
    (strCol "d" ((List.range 17).map (fun i =>
      some ("2020-01-" ++ (if i < 9 then "0" else "") ++ toString (i + 1))) ++
      [some "u1", some "u2", some "u3"]))
    (by decide) (by decide) (by decide) (by decide)
  exact ⟨s, by
    have : (strCol "d" ((List.range 17).map (fun i =>
      some ("2020-01-" ++ (if i < 9 then "0" else "") ++ toString (i + 1))) ++
      [some "u1", some "u2", some "u3"])).name = "d" := by decide
    rw [← this]
    exact hlook, hty⟩

/-- C9: every numeric column with at least 2 non-missing values yields
exactly its histogram artifact, whose kernel-density overlay is drawn if and
only if the rule-of-thumb bandwidth `bw = std·n^(−1/5)` (with
`std = √(sample variance)`) is positive — i.e. skipped exactly when
`bw ≤ 0`; numeric columns with fewer than 2 non-missing values produce no
artifact. -/
theorem save_distribution_histograms_spec (df : DataFrame) (c : Col)
    (hwf : df.WF) (hc : c ∈ df.cols) (hnum : c.isNumeric = true) :
    (c.numData.length < 2 →
      ∀ e ∈ save_distribution_histograms df, e.col ≠ c.name) ∧
    (2 ≤ c.numData.length →
      ∃ e ∈ save_distribution_histograms df,
        e.col = c.name ∧ e.path = "hist_" ++ sanitize c.name ++ ".png" ∧
        e.n = c.numData.length ∧
        e.sampleVar = centeredSS c.numData / ((c.numData.length : ℚ) - 1) ∧
        (e.overlayDrawn = true ↔
          0 < Real.sqrt ((e.sampleVar : ℚ) : ℝ) * ((e.n : ℝ) ^ (-(1:ℝ)/5)))) := by
  have hnd : ((numericCols df).map Col.name).Nodup :=
    ((List.filter_sublist df.cols).map Col.name).nodup hwf.2
  have hcmem : c ∈ numericCols df := List.mem_filter.mpr ⟨hc, hnum⟩
  constructor
  · intro hlen e he hname
    rcases List.mem_filterMap.mp he with ⟨c2, hc2, hF⟩
    by_cases h2 : c2.numData.length < 2
    · rw [if_pos h2] at hF
      exact absurd hF (by simp)
    · rw [if_neg h2] at hF
      have he2 : e.col = c2.name := by
        rw [← Option.some_inj.mp hF]
      have : c2 = c :=
        List.inj_on_of_nodup_map hnd hc2 hcmem (by rw [← he2, hname])
      rw [this] at h2
      exact h2 hlen
  · intro hlen
    have hmem : (
        { col := c.name,
          path := "hist_" ++ sanitize c.name ++ ".png",
          n := c.numData.length,
          sampleVar := centeredSS c.numData / ((c.numData.length : ℚ) - 1),
          overlayDrawn :=
            decide (0 < centeredSS c.numData / ((c.numData.length : ℚ) - 1)) } :
        HistEntry) ∈ save_distribution_histograms df := by
      unfold save_distribution_histograms
      apply List.mem_filterMap.mpr
      refine ⟨c, hcmem, ?_⟩
      dsimp only
      rw [if_neg (by omega)]
    refine ⟨_, hmem, rfl, rfl, rfl, rfl, ?_⟩
    · -- the overlay decision is exactly the positivity of the real bandwidth
      dsimp only
      set sv : ℚ := centeredSS c.numData / ((c.numData.length : ℚ) - 1) with hsv
      have hnpos : (0 : ℝ) < (c.numData.length : ℝ) := by
        have : (0 : ℕ) < c.numData.length := by omega
        exact_mod_cast this
      have hrpow : (0 : ℝ) < (c.numData.length : ℝ) ^ (-(1:ℝ)/5) :=
        Real.rpow_pos_of_pos hnpos _
      constructor
      · intro hd
        have hsvpos : (0 : ℚ) < sv := of_decide_eq_true hd
        have hsvr : (0 : ℝ) < (sv : ℝ) := by exact_mod_cast hsvpos
        exact mul_pos (Real.sqrt_pos.mpr hsvr) hrpow
      · intro hprod
        apply decide_eq_true
        by_contra hns
        have hle : (sv : ℚ) ≤ 0 := le_of_not_lt hns
        have hler : ((sv : ℚ) : ℝ) ≤ 0 := by exact_mod_cast hle
        have : Real.sqrt ((sv : ℚ) : ℝ) = 0 := Real.sqrt_eq_zero'.mpr hler
        rw [this, zero_mul] at hprod
        exact lt_irrefl 0 hprod

unseal Rat.add Rat.mul Rat.sub Rat.inv in
/-- Witness for C9 at a concrete dataset: the non-constant column `w` gets
its histogram with the overlay decision characterized by the real bandwidth,
and the single-value column `z` produces no artifact. -/
theorem save_distribution_histograms_spec_witness :
    (∃ e ∈ save_distribution_histograms dfHist,
      e.col = "w" ∧ e.path = "hist_w.png" ∧ e.n = 2 ∧
      e.sampleVar = 1/2 ∧
      (e.overlayDrawn = true ↔
        0 < Real.sqrt ((e.sampleVar : ℚ) : ℝ) * ((e.n : ℝ) ^ (-(1:ℝ)/5)))) ∧
    (∀ e ∈ save_distribution_histograms dfHist, e.col ≠ "z") := by
  constructor
  · obtain ⟨e, hmem, hcol, hpath, hn, hsv, hiff⟩ :=
      (save_distribution_histograms_spec dfHist (numCol "w" [some 1, some 2])
        (by decide) (by decide) (by decide)).2 (by decide)
    refine ⟨e, hmem, hcol, ?_, ?_, ?_, hiff⟩
    · rw [hpath]; decide
    · rw [hn]; decide
    · rw [hsv]; decide
  · intro e he
    exact (save_distribution_histograms_spec dfHist (numCol "z" [some 1, none])
      (by decide) (by decide) (by decide)).1 (by decide) e he

theorem lsum_sub_const (l : List ℚ) (m : ℚ) :
    (l.map (fun a => a - m)).sum = l.sum - (l.length : ℚ) * m := by
  induction l with
  | nil => simp
  | cons a t ih =>
    simp only [List.map_cons, List.sum_cons, List.length_cons, ih]
    push_cast
    ring

theorem sum_centered_eq_zero (l : List ℚ) (hl : l ≠ []) :
    (l.map (fun a => a - listMean l)).sum = 0 := by
  rw [lsum_sub_const, listMean]
  have hn : (l.length : ℚ) ≠ 0 := by
    have : l.length ≠ 0 := by simpa using hl
    exact_mod_cast this
  field_simp

theorem sum_expand (ps : List (ℚ × ℚ)) (s b mx my : ℚ) :
    (ps.map (fun p => (p.2 - (s * p.1 + b)) ^ 2)).sum =
      (ps.map (fun p => (p.2 - my) ^ 2)).sum
      + s ^ 2 * (ps.map (fun p => (p.1 - mx) ^ 2)).sum
      + (ps.length : ℚ) * (my - s * mx - b) ^ 2
      - 2 * s * (ps.map (fun p => (p.1 - mx) * (p.2 - my))).sum
      + 2 * (my - s * mx - b) * (ps.map (fun p => p.2 - my)).sum
      - 2 * s * (my - s * mx - b) * (ps.map (fun p => p.1 - mx)).sum := by
  induction ps with
  | nil => simp
  | cons p t ih =>
    simp only [List.map_cons, List.sum_cons, List.length_cons, ih]
    push_cast
    ring

theorem zip_proj_fst (xs ys : List ℚ) (h : xs.length = ys.length) (f : ℚ → ℚ) :
    ((xs.zip ys).map (fun p => f p.1)) = xs.map f := by
  rw [show (fun p : ℚ × ℚ => f p.1) = (f ∘ Prod.fst) from rfl, ← List.map_map,
    List.map_fst_zip xs ys (le_of_eq h)]

theorem zip_proj_snd (xs ys : List ℚ) (h : ys.length = xs.length) (f : ℚ → ℚ) :
    ((xs.zip ys).map (fun p => f p.2)) = ys.map f := by
  rw [show (fun p : ℚ × ℚ => f p.2) = (f ∘ Prod.snd) from rfl, ← List.map_map,
    List.map_snd_zip xs ys (le_of_eq h)]

/-- The residual-sum identity behind ordinary least squares: for nonempty
paired data and any candidate line, the residual sum of squares decomposes
into the centered sums plus the intercept-offset term. -/
theorem fitSS_identity (xs ys : List ℚ) (hlen : xs.length = ys.length)
    (hne : xs ≠ []) (s b : ℚ) :
    fitSS xs ys s b =
      centeredSS ys + s ^ 2 * centeredSS xs - 2 * s * crossSS xs ys
      + ((xs.zip ys).length : ℚ) * (listMean ys - s * listMean xs - b) ^ 2 := by
  have hne2 : ys ≠ [] := by
    intro h
    rw [h, List.length_nil] at hlen
    exact hne (List.length_eq_zero.mp hlen)
  have h1 := sum_expand (xs.zip ys) s b (listMean xs) (listMean ys)
  have hz1 : ((xs.zip ys).map (fun p => p.1 - listMean xs)).sum = 0 := by
    rw [zip_proj_fst xs ys hlen (fun a => a - listMean xs)]
    exact sum_centered_eq_zero xs hne
  have hz2 : ((xs.zip ys).map (fun p => p.2 - listMean ys)).sum = 0 := by
    rw [zip_proj_snd xs ys hlen.symm (fun a => a - listMean ys)]
    exact sum_centered_eq_zero ys hne2
  have hsxx : ((xs.zip ys).map (fun p => (p.1 - listMean xs) ^ 2)).sum
      = centeredSS xs := by
    rw [zip_proj_fst xs ys hlen (fun a => (a - listMean xs) ^ 2)]
    rfl
  have hsyy : ((xs.zip ys).map (fun p => (p.2 - listMean ys) ^ 2)).sum
      = centeredSS ys := by
    rw [zip_proj_snd xs ys hlen.symm (fun a => (a - listMean ys) ^ 2)]
    rfl
  rw [hz1, hz2, hsxx, hsyy] at h1
  have hcross : ((xs.zip ys).map
      (fun p => (p.1 - listMean xs) * (p.2 - listMean ys))).sum = crossSS xs ys := rfl
  rw [hcross] at h1
  show ((xs.zip ys).map (fun p => (p.2 - (s * p.1 + b)) ^ 2)).sum = _
  rw [h1]
  ring

/-- C7: `save_scatter_with_regression`, on present numeric axis columns,
returns a structured error when fewer than 5 rows survive the row drop;
otherwise (for non-degenerate x) the returned slope and intercept are the
ordinary-least-squares line — they minimize the residual sum of squares over
all lines — given in closed form, and R² is `1 − SS_res/SS_tot`, defined as
0 when `SS_tot = 0`. -/
theorem save_scatter_with_regression_spec (df : DataFrame)
    (x_col y_col color_col : String) (cx cy : Col)
    (hfx : df.findCol x_col = some cx) (hnx : cx.isNumeric = true)
    (hfy : df.findCol y_col = some cy) (hny : cy.isNumeric = true) :
    ((keptIndices df (scatterSubset df x_col y_col color_col)).length < 5 →
      save_scatter_with_regression df x_col y_col color_col =
        some (.err "Fewer than 5 non-null rows after dropping NAs — skipped")) ∧
    (5 ≤ (keptIndices df (scatterSubset df x_col y_col color_col)).length →
      centeredSS (colOnRows df x_col
        (keptIndices df (scatterSubset df x_col y_col color_col))) ≠ 0 →
      ∃ r, save_scatter_with_regression df x_col y_col color_col =
          some (.ok r) ∧
        r.slope = crossSS
            (colOnRows df x_col (keptIndices df (scatterSubset df x_col y_col color_col)))
            (colOnRows df y_col (keptIndices df (scatterSubset df x_col y_col color_col)))
          / centeredSS
            (colOnRows df x_col (keptIndices df (scatterSubset df x_col y_col color_col))) ∧
        r.intercept =
          listMean (colOnRows df y_col (keptIndices df (scatterSubset df x_col y_col color_col)))
          - r.slope * listMean (colOnRows df x_col (keptIndices df (scatterSubset df x_col y_col color_col))) ∧
        (∀ s b,
          fitSS (colOnRows df x_col (keptIndices df (scatterSubset df x_col y_col color_col)))
            (colOnRows df y_col (keptIndices df (scatterSubset df x_col y_col color_col)))
            r.slope r.intercept ≤
          fitSS (colOnRows df x_col (keptIndices df (scatterSubset df x_col y_col color_col)))
            (colOnRows df y_col (keptIndices df (scatterSubset df x_col y_col color_col)))
            s b) ∧
        (centeredSS (colOnRows df y_col
            (keptIndices df (scatterSubset df x_col y_col color_col))) = 0 →
          r.r_squared = 0) ∧
        (centeredSS (colOnRows df y_col
            (keptIndices df (scatterSubset df x_col y_col color_col))) ≠ 0 →
          r.r_squared = 1 -
            fitSS (colOnRows df x_col (keptIndices df (scatterSubset df x_col y_col color_col)))
              (colOnRows df y_col (keptIndices df (scatterSubset df x_col y_col color_col)))
              r.slope r.intercept /
            centeredSS (colOnRows df y_col
              (keptIndices df (scatterSubset df x_col y_col color_col))))) := by
  constructor
  · intro hlt
    simp only [save_scatter_with_regression, hfx, hnx, hfy, hny, Bool.not_true,
      Bool.false_eq_true, if_false, if_pos hlt]
  · intro hge hsxx
    have hnotlt : ¬ ((keptIndices df (scatterSubset df x_col y_col color_col)).length < 5) := by
      omega
    set rows := keptIndices df (scatterSubset df x_col y_col color_col) with hrows
    set xv := colOnRows df x_col rows with hxv
    set yv := colOnRows df y_col rows with hyv
    have hres : save_scatter_with_regression df x_col y_col color_col =
        some (.ok
          { path := "scatter_" ++ sanitize x_col ++ "_vs_" ++ sanitize y_col ++ ".png"
            hue := if (color_col ≠ "NONE" &&
                (match df.findCol color_col with
                 | some c => c.isStringLike && decide (c.nunique ≤ 12)
                 | none => false)) then some color_col else none
            slope := crossSS xv yv / centeredSS xv
            intercept := listMean yv - crossSS xv yv / centeredSS xv * listMean xv
            r_squared := if centeredSS yv ≠ 0 then
                1 - fitSS xv yv (crossSS xv yv / centeredSS xv)
                  (listMean yv - crossSS xv yv / centeredSS xv * listMean xv)
                  / centeredSS yv
              else 0
            slope_out := round4 (crossSS xv yv / centeredSS xv)
            intercept_out := round4 (listMean yv - crossSS xv yv / centeredSS xv * listMean xv)
            r2_out := round4 (if centeredSS yv ≠ 0 then
                1 - fitSS xv yv (crossSS xv yv / centeredSS xv)
                  (listMean yv - crossSS xv yv / centeredSS xv * listMean xv)
                  / centeredSS yv
              else 0) }) := by
      simp only [save_scatter_with_regression, hfx, hnx, hfy, hny, Bool.not_true,
        Bool.false_eq_true, if_false, ← hrows, if_neg hnotlt, ← hxv, ← hyv,
        if_neg hsxx]
    refine ⟨_, hres, rfl, rfl, ?_, ?_, ?_⟩
    · -- least-squares minimality
      intro s b
      dsimp only
      have hlxy : xv.length = yv.length := by
        rw [hxv, hyv]
        unfold colOnRows
        simp
      have hxne : xv ≠ [] := by
        intro h
        have : xv.length = rows.length := by rw [hxv]; unfold colOnRows; simp
        rw [h] at this
        simp at this
        omega
      have hpos : 0 < centeredSS xv :=
        lt_of_le_of_ne (centeredSS_nonneg xv) (Ne.symm hsxx)
      rw [fitSS_identity xv yv hlxy hxne, fitSS_identity xv yv hlxy hxne]
      have e0 : (listMean yv - crossSS xv yv / centeredSS xv * listMean xv -
          (listMean yv - crossSS xv yv / centeredSS xv * listMean xv)) = 0 := by
        ring
      rw [e0, show ((0:ℚ))^2 = 0 from by norm_num, mul_zero, add_zero]
      have hkey : (crossSS xv yv / centeredSS xv) ^ 2 * centeredSS xv
          - 2 * (crossSS xv yv / centeredSS xv) * crossSS xv yv ≤
          s ^ 2 * centeredSS xv - 2 * s * crossSS xv yv := by
        have hd : s ^ 2 * centeredSS xv - 2 * s * crossSS xv yv -
            ((crossSS xv yv / centeredSS xv) ^ 2 * centeredSS xv
              - 2 * (crossSS xv yv / centeredSS xv) * crossSS xv yv) =
            (s * centeredSS xv - crossSS xv yv) ^ 2 / centeredSS xv := by
          field_simp
          ring
        have hnn : 0 ≤ (s * centeredSS xv - crossSS xv yv) ^ 2 / centeredSS xv :=
          div_nonneg (sq_nonneg _) hpos.le
        linarith
      have hterm : 0 ≤ ((xv.zip yv).length : ℚ) *
          (listMean yv - s * listMean xv - b) ^ 2 :=
        mul_nonneg (by positivity) (sq_nonneg _)
      linarith
    · intro h0
      dsimp only
      rw [if_neg (not_not.mpr h0)]
    · intro hne
      dsimp only
      rw [if_pos hne]

unseal Rat.add Rat.mul Rat.sub Rat.inv in
/-- Witness for C7 at a concrete 5-row dataset with `y = 2x`. -/
theorem save_scatter_with_regression_spec_witness :
    ∃ r, save_scatter_with_regression dfLine "x" "y" "NONE" = some (.ok r) ∧
      fitSS (colOnRows dfLine "x" (keptIndices dfLine (scatterSubset dfLine "x" "y" "NONE")))
        (colOnRows dfLine "y" (keptIndices dfLine (scatterSubset dfLine "x" "y" "NONE")))
        r.slope r.intercept ≤
      fitSS (colOnRows dfLine "x" (keptIndices dfLine (scatterSubset dfLine "x" "y" "NONE")))
        (colOnRows dfLine "y" (keptIndices dfLine (scatterSubset dfLine "x" "y" "NONE")))
        0 0 ∧
      r.r_squared = 1 -
        fitSS (colOnRows dfLine "x" (keptIndices dfLine (scatterSubset dfLine "x" "y" "NONE")))
          (colOnRows dfLine "y" (keptIndices dfLine (scatterSubset dfLine "x" "y" "NONE")))
          r.slope r.intercept /
        centeredSS (colOnRows dfLine "y"
          (keptIndices dfLine (scatterSubset dfLine "x" "y" "NONE"))) := by
  obtain ⟨r, hok, _, _, hmin, _, hr2⟩ :=
    (save_scatter_with_regression_spec dfLine "x" "y" "NONE"
      (numCol "x" [some 1, some 2, some 3, some 4, some 5])
      (numCol "y" [some 2, some 4, some 6, some 8, some 10])
      (by decide) (by decide) (by decide) (by decide)).2
      (by decide) (by decide)
  exact ⟨r, hok, hmin 0 0, hr2 (by decide)⟩

/-- C8: `save_time_series_chart` errors when the date column is absent or
when strictly more than 20% of its values (over all rows) fail to parse;
otherwise the unparseable rows are dropped and the kept dates are sorted
ascending (a permutation of the parseable values), the `ALL_NUMERIC`
sentinel resolves to all remaining numeric columns capped at 5, and an
empty resolved column set is a structured error. -/
theorem save_time_series_chart_spec (parse : Value → Option ℤ)
    (df : DataFrame) (date_col : String) (vsel : ColumnSelector)
    (agg : AggPeriod) :
    (df.findCol date_col = none →
      save_time_series_chart parse df date_col vsel agg =
        .err ("date_col " ++ date_col ++ " not found in columns")) ∧
    (∀ c, df.findCol date_col = some c →
      (((1:ℚ)/5 <
          ((((parsedDates parse c).filter Option.isNone).length : ℚ) / (df.nrows : ℚ)) →
        save_time_series_chart parse df date_col vsel agg =
          .err ("date_col " ++ date_col ++ " has unparseable values — skipped")) ∧
      (¬ ((1:ℚ)/5 <
          ((((parsedDates parse c).filter Option.isNone).length : ℚ) / (df.nrows : ℚ))) →
        (tsColsToPlot df date_col vsel = [] →
          save_time_series_chart parse df date_col vsel agg =
            .err "No valid numeric columns to plot") ∧
        (tsColsToPlot df date_col vsel ≠ [] →
          ∃ r, save_time_series_chart parse df date_col vsel agg = .ok r ∧
            r.columns_plotted = tsColsToPlot df date_col vsel ∧
            (vsel = .allNumeric →
              r.columns_plotted = (tsNumericNames df date_col).take 5) ∧
            List.Sorted (· ≤ ·) r.rowDates ∧
            r.rowDates.Perm ((parsedDates parse c).filterMap id))))) := by
  constructor
  · intro hnone
    simp only [save_time_series_chart, hnone]
  · intro c hfind
    constructor
    · intro hfrac
      simp only [save_time_series_chart, hfind, if_pos hfrac]
    · intro hfrac
      constructor
      · intro hempty
        have hmt : (tsColsToPlot df date_col vsel).isEmpty = true := by
          rw [hempty]; rfl
        simp only [save_time_series_chart, hfind, if_neg hfrac, hmt, if_true]
      · intro hne
        have hmt : ¬ ((tsColsToPlot df date_col vsel).isEmpty = true) := by
          cases h : tsColsToPlot df date_col vsel with
          | nil => exact absurd h hne
          | cons a t => simp [h]
        refine ⟨
          { path := "timeseries_" ++ sanitize date_col ++ ".png",
            date_col := date_col, agg_period := agg,
            columns_plotted := tsColsToPlot df date_col vsel,
            rowDates := List.insertionSort (· ≤ ·)
              ((parsedDates parse c).filterMap id) }, ?_, rfl, ?_, ?_, ?_⟩
        · simp only [save_time_series_chart, hfind, if_neg hfrac, if_neg hmt]
        · intro hvs
          rw [hvs]
          rfl
        · exact List.sorted_insertionSort (· ≤ ·) _
        · exact List.perm_insertionSort (· ≤ ·) _

unseal Rat.add Rat.mul Rat.sub Rat.inv in
/-- Witness for C8 at a concrete dataset with one unparseable date out of 5
(exactly 20%, which is not above the threshold) and unsorted parseable
dates. -/
theorem save_time_series_chart_spec_witness :
    ∃ r, save_time_series_chart parseW dfTime "t" .allNumeric .NONE = .ok r ∧
      r.columns_plotted = ["m"] ∧
      List.Sorted (· ≤ ·) r.rowDates ∧
      r.rowDates.Perm [3, 1, 2, 4] := by
  obtain ⟨r, hok, hcols, _, hsorted, hperm⟩ :=
    (((save_time_series_chart_spec parseW dfTime "t" .allNumeric .NONE).2
      (strCol "t" [some "d3", some "d1", some "bad", some "d2", some "d4"])
      (by decide)).2 (by decide)).2 (by decide)
  refine ⟨r, hok, ?_, hsorted, ?_⟩
  · rw [hcols]; decide
  · have : (parsedDates parseW
        (strCol "t" [some "d3", some "d1", some "bad", some "d2", some "d4"])).filterMap id
        = [3, 1, 2, 4] := by decide
    rw [← this]
    exact hperm

/-- C10: when `color_col` names a column absent from the dataset (and is not
the `'NONE'` sentinel), `save_scatter_with_regression` behaves exactly as if
`'NONE'` had been passed — same row drop (on x and y only), same result, no
error from the absent column — and any successful render is single-colored
(`hue = none`). -/
theorem scatter_absent_color_ignored (df : DataFrame)
    (x_col y_col color_col : String) (hcc : color_col ≠ "NONE")
    (hnone : df.findCol color_col = none) :
    save_scatter_with_regression df x_col y_col color_col =
      save_scatter_with_regression df x_col y_col "NONE" ∧
    (∀ r, save_scatter_with_regression df x_col y_col color_col =
        some (.ok r) → r.hue = none) := by
  have hsub : scatterSubset df x_col y_col color_col =
      scatterSubset df x_col y_col "NONE" := by
    unfold scatterSubset
    rw [hnone]
    simp
  have hR : (decide (("NONE" : String) ≠ "NONE")) = false := by decide
  have heq : save_scatter_with_regression df x_col y_col color_col =
      save_scatter_with_regression df x_col y_col "NONE" := by
    unfold save_scatter_with_regression
    rw [hsub]
    simp only [hnone, Bool.and_false, hR, Bool.false_and, Bool.false_eq_true,
      if_false]
  refine ⟨heq, ?_⟩
  intro r hok
  unfold save_scatter_with_regression at hok
  simp only [hnone, Bool.and_false, Bool.false_eq_true, if_false] at hok
  split at hok
  · simp at hok
  · split at hok
    · simp at hok
    · split at hok
      · simp at hok
      · split at hok
        · simp at hok
        · rw [Option.some_inj] at hok
          injection hok with h
          subst h
          rfl

unseal Rat.add Rat.mul Rat.sub Rat.inv in
/-- Witness for C10 at a concrete dataset and an absent color column. -/
theorem scatter_absent_color_ignored_witness :
    save_scatter_with_regression dfLine "x" "y" "zz" =
      save_scatter_with_regression dfLine "x" "y" "NONE" :=
  (scatter_absent_color_ignored dfLine "x" "y" "zz" (by decide) (by decide)).1

end Datalyst
